import Mathlib

/-
  Verification development for the firmcatalog-prod-metrics repository.

  The embedding below follows the two core source files:
  - src/events-consumer.ts: the batch aggregator and the merge-and-acknowledge
    coordinator (the queue handler);
  - src/reports-worker.ts: the report query engine (GET /company/:slug and
    GET /summary) together with its range resolution.

  JavaScript numbers that only ever hold small non-negative integral counter
  values are modelled as Nat; the days query parameter, which can be an
  arbitrary JavaScript number, is modelled as a rational together with the
  non-finite values NaN and the two infinities. The D1 database calls are
  modelled by their SQL semantics over an explicit list of rows.
-/

namespace FirmCatalog

/-- Model of a JavaScript value as it can appear in the companyId field of a
queue message body in src/events-consumer.ts. The batch is typed any, so the
field can hold a number (modelled as an integer), a string, or be absent. -/
inductive JSVal where
  | num (n : Int)
  | str (s : String)
  | undef
deriving DecidableEq

/-- JavaScript truthiness of the modelled values: the number 0, the empty
string and undefined are falsy, everything else is truthy. This is what the
guard on line 37 of src/events-consumer.ts tests with the negations
q!e.companyId and q!e.createdAt. -/
def JSVal.truthy : JSVal → Bool
  | .num n => n != 0
  | .str s => s != ""
  | .undef => false

/-- Template-literal stringification used by the aggregation key on line 43
of src/events-consumer.ts. Integers print as in JavaScript; a string
interpolates as itself; undefined prints as the word undefined. -/
def JSVal.keyString : JSVal → String
  | .num n => toString n
  | .str s => s
  | .undef => "undefined"

/-- The eight daily counters of a company_daily_stats row. These are the
eight numeric fields of the aggregate record literal on lines 46 to 57 of
src/events-consumer.ts and of the CompanyReportTotals type of the reports
worker. -/
structure Totals where
  views_profile : Nat
  impressions_search : Nat
  impressions_map : Nat
  clicks_phone : Nat
  clicks_site : Nat
  clicks_email : Nat
  clicks_directions : Nat
  leads_form : Nat
deriving DecidableEq

/-- All eight counters zero, as produced by emptyTotals() in the reports
worker and by the fresh aggregate entry of the consumer. -/
def emptyTotals : Totals :=
  { views_profile := 0, impressions_search := 0, impressions_map := 0
    clicks_phone := 0, clicks_site := 0, clicks_email := 0
    clicks_directions := 0, leads_form := 0 }

/-- A queue message body as the consumer reads it (msg.body as QueueEvent):
companyId may be any JavaScript value, type is the event-type string, and
createdAt is the ISO-8601 timestamp string or none when absent. -/
structure QueueEvent where
  companyId : JSVal
  type : String
  createdAt : Option String
deriving DecidableEq

/-- Truthiness of the createdAt field exactly as the guard sees it: an absent
field and the empty string are falsy. -/
def createdAtTruthy : Option String → Bool
  | none => false
  | some s => s != ""

/-- The validation guard of src/events-consumer.ts line 37: the event is kept
exactly when both companyId and createdAt are truthy. -/
def validEvent (e : QueueEvent) : Bool :=
  e.companyId.truthy && createdAtTruthy e.createdAt

/-- The date portion of a timestamp, e.createdAt.slice(0, 10) on line 42 of
src/events-consumer.ts, modelled on the character list of the string. -/
def dateSlice (s : String) : String :=
  ⟨s.data.take 10⟩

/-- An aggregated delta: one entry of the aggregates mapping built on lines
45 to 58 of src/events-consumer.ts, with the eight flat counter fields
gathered into one Totals value. -/
structure Delta where
  companyId : JSVal
  date : String
  totals : Totals
deriving DecidableEq

/-- One step of the switch statement on lines 62 to 92 of
src/events-consumer.ts: a recognized type increments its counter by one, the
default branch leaves the aggregate unchanged (skip and log). -/
def applyType (t : String) (a : Totals) : Totals :=
  match t with
  | "PROFILE_VIEW" => { a with views_profile := a.views_profile + 1 }
  | "SEARCH_IMPRESSION" => { a with impressions_search := a.impressions_search + 1 }
  | "MAP_IMPRESSION" => { a with impressions_map := a.impressions_map + 1 }
  | "CLICK_PHONE" => { a with clicks_phone := a.clicks_phone + 1 }
  | "CLICK_SITE" => { a with clicks_site := a.clicks_site + 1 }
  | "CLICK_EMAIL" => { a with clicks_email := a.clicks_email + 1 }
  | "CLICK_DIRECTIONS" => { a with clicks_directions := a.clicks_directions + 1 }
  | "FORM_SUBMIT" => { a with leads_form := a.leads_form + 1 }
  | _ => a

/-- The closed enumeration of the eight event types of the switch statement
in src/events-consumer.ts. -/
def recognizedTypes : List String :=
  ["PROFILE_VIEW", "SEARCH_IMPRESSION", "MAP_IMPRESSION", "CLICK_PHONE",
   "CLICK_SITE", "CLICK_EMAIL", "CLICK_DIRECTIONS", "FORM_SUBMIT"]

/-- The aggregates object of src/events-consumer.ts modelled as an
association list in insertion order: a plain JavaScript object with
non-index string keys enumerates its keys in insertion order, which is the
order the write loop later uses. -/
abbrev AggMap := List (String × Delta)

/-- Lookup of aggregates[key]. -/
def lookupAgg : AggMap → String → Option Delta
  | [], _ => none
  | (k, d) :: rest, key => if k = key then some d else lookupAgg rest key

/-- Assignment aggregates[key] = d: replaces the entry in place when the key
exists, otherwise appends it at the end, as JavaScript property assignment
does. -/
def setAgg : AggMap → String → Delta → AggMap
  | [], key, d => [(key, d)]
  | (k, x) :: rest, key, d =>
      if k = key then (key, d) :: rest else (k, x) :: setAgg rest key d

/-- The loop body of the for loop over messages in src/events-consumer.ts
lines 27 to 93: skip an event failing the required-field guard, derive date
and key, create a zeroed entry when the key is new, and apply the switch on
the event type to that entry. -/
def processEvent (m : AggMap) (e : QueueEvent) : AggMap :=
  if validEvent e then
    let date := dateSlice (e.createdAt.getD "")
    let key := e.companyId.keyString ++ ":" ++ date
    let base := (lookupAgg m key).getD
      { companyId := e.companyId, date := date, totals := emptyTotals }
    setAgg m key { base with totals := applyType e.type base.totals }
  else m

/-- The whole aggregation pass of the queue handler: fold the loop body over
the messages of the batch starting from the empty mapping. -/
def aggregate (messages : List QueueEvent) : AggMap :=
  messages.foldl processEvent []

/-- The write loop of src/events-consumer.ts lines 130 to 161, parameterized
by the success of each store upsert. Deltas are written in mapping order;
the first failing upsert aborts the loop with the list of deltas written so
far; full success returns the list of all written deltas. -/
def writeDeltas (writeOk : Delta → Bool) : AggMap → Except (List Delta) (List Delta)
  | [] => .ok []
  | (_, d) :: rest =>
      if writeOk d then
        match writeDeltas writeOk rest with
        | .ok ws => .ok (d :: ws)
        | .error ws => .error (d :: ws)
      else .error []

/-- Observable outcome of one queue delivery: which deltas were upserted, how
many messages were acknowledged, and whether the handler rethrew the store
error to the transport. -/
structure QueueOutcome where
  written : List Delta
  acked : Nat
  threw : Bool
deriving DecidableEq

/-- The queue handler of src/events-consumer.ts: aggregate the batch, upsert
every delta, and only when every upsert succeeded acknowledge every message;
on a store failure acknowledge nothing and rethrow so the transport retries
the batch. -/
def queue (writeOk : Delta → Bool) (messages : List QueueEvent) : QueueOutcome :=
  match writeDeltas writeOk (aggregate messages) with
  | .ok ws => { written := ws, acked := messages.length, threw := false }
  | .error ws => { written := ws, acked := 0, threw := true }

/-- Lexicographic comparison of character lists, used to model how SQLite
compares TEXT values in the WHERE clauses date >= ? and date <= ? of the
reports worker. On ASCII date strings of the form YYYY-MM-DD this coincides
with the byte-wise comparison the store performs. -/
def charsLe : List Char → List Char → Bool
  | [], _ => true
  | _ :: _, [] => false
  | a :: as, b :: bs => if a = b then charsLe as bs else decide (a < b)

/-- TEXT comparison on strings via their character lists. -/
def strLe (s t : String) : Bool :=
  charsLe s.data t.data

/-- Entity metadata as selected from the companies table by the reports
worker (type CompanyMeta in src/reports-worker.ts). -/
structure CompanyMeta where
  id : Int
  slug : String
  name : String
  city_name : Option String
  city_slug : Option String
  country_code : Option String
  primary_category_slug : Option String
  plan_type : Option String
deriving DecidableEq

/-- One stored row of the company_daily_stats table: the durable daily
counter row keyed by (company_id, date). -/
structure StatsRow where
  company_id : Int
  date : String
  totals : Totals
deriving DecidableEq

/-- One element of the daily array in a company report: the date plus the
eight counters of the stored row. -/
structure DailyItem where
  date : String
  totals : Totals
deriving DecidableEq

/-- Component-wise addition of the eight counters, as performed row by row by
the totals accumulation loop of the /company/:slug handler. -/
def addTotals (x y : Totals) : Totals :=
  { views_profile := x.views_profile + y.views_profile
    impressions_search := x.impressions_search + y.impressions_search
    impressions_map := x.impressions_map + y.impressions_map
    clicks_phone := x.clicks_phone + y.clicks_phone
    clicks_site := x.clicks_site + y.clicks_site
    clicks_email := x.clicks_email + y.clicks_email
    clicks_directions := x.clicks_directions + y.clicks_directions
    leads_form := x.leads_form + y.leads_form }

/-- The WHERE clause of the per-company stats query: company_id = ? AND
date >= ? AND date <= ?. -/
def rowInRange (cid : Int) (fromStr toStr : String) (r : StatsRow) : Bool :=
  r.company_id == cid && strLe fromStr r.date && strLe r.date toStr

/-- Ascending-by-date order on stats rows, the ORDER BY date ASC of the
per-company stats query. -/
def dateLeRow (a b : StatsRow) : Prop :=
  strLe a.date b.date = true

instance : DecidableRel dateLeRow := fun a b => by
  unfold dateLeRow
  infer_instance

/-- The SELECT ... FROM company_daily_stats WHERE company_id = ? AND
date >= ? AND date <= ? ORDER BY date ASC query of the /company/:slug
handler, modelled over an explicit list of stored rows. The store returns
the matching rows sorted by date; a stable sort of the filtered list is the
deterministic refinement used here. -/
def queryRange (stats : List StatsRow) (cid : Int) (fromStr toStr : String) :
    List StatsRow :=
  List.insertionSort dateLeRow (stats.filter (rowInRange cid fromStr toStr))

/-- Component-wise sum of the totals of a list of daily items, folded left
with all counters starting at zero. -/
def sumTotals (l : List DailyItem) : Totals :=
  l.foldl (fun a i => addTotals a i.totals) emptyTotals

/-- The report returned by the /company/:slug handler: entity metadata, the
resolved range, and totals plus the daily breakdown. -/
structure CompanyReport where
  company : CompanyMeta
  range_from : String
  range_to : String
  range_days : ℚ
  totals : Totals
  daily : List DailyItem
deriving DecidableEq

/-- A structured JSON error of the reports worker: HTTP status plus the error
message of the response body. -/
structure ErrResp where
  status : Nat
  message : String
deriving DecidableEq

/-- The GET /company/:slug handler of src/reports-worker.ts lines 236 to 371:
an empty slug yields the 400 invalid-slug error; a slug matching no company
row yields the 404 not-found error; otherwise the handler reads the rows of
the resolved range ordered by date ascending, pushes each row onto the daily
list while adding its counters into the running totals, and returns the
report. -/
def getEntityReport (companies : List CompanyMeta) (stats : List StatsRow)
    (slug : String) (fromStr toStr : String) (days : ℚ) :
    Except ErrResp CompanyReport :=
  if slug = "" then
    .error { status := 400, message := "Invalid company slug" }
  else
    match companies.find? (fun c => c.slug == slug) with
    | none => .error { status := 404, message := "Company not found" }
    | some c =>
        let rows := queryRange stats c.id fromStr toStr
        let acc := rows.foldl
          (fun (p : Totals × List DailyItem) r =>
            (addTotals p.1 r.totals, p.2 ++ [{ date := r.date, totals := r.totals }]))
          (emptyTotals, [])
        .ok { company := c, range_from := fromStr, range_to := toStr
              range_days := days, totals := acc.1, daily := acc.2 }

/-- One item of the summary response: a company plus its range totals. -/
structure SummaryItem where
  company : CompanyMeta
  totals : Totals
deriving DecidableEq

/-- The summary response of the /summary handler: the resolved range plus the
ranked item list. -/
structure SummaryResponse where
  range_from : String
  range_to : String
  range_days : ℚ
  items : List SummaryItem
deriving DecidableEq

/-- Sum of the counters of all stored rows of one company within the range,
the COALESCE(SUM(...), 0) aggregates of the /summary query: a company with no
row in range gets all eight totals zero. -/
def rangeTotals (stats : List StatsRow) (cid : Int) (fromStr toStr : String) :
    Totals :=
  (stats.filter (rowInRange cid fromStr toStr)).foldl
    (fun a r => addTotals a r.totals) emptyTotals

/-- Descending order by the profile-view counter, the ORDER BY views_profile
DESC of the /summary query. -/
def viewsDescRel (a b : SummaryItem) : Prop :=
  b.totals.views_profile ≤ a.totals.views_profile

instance : DecidableRel viewsDescRel := fun a b => by
  unfold viewsDescRel
  infer_instance

/-- The GET /summary handler of src/reports-worker.ts lines 374 to 453: the
LEFT JOIN of companies with their in-range stats rows, grouped per company
with COALESCE-to-zero sums, ordered by the profile-view total descending. A
stable sort of the per-company totals list models the query result. -/
def getSummary (companies : List CompanyMeta) (stats : List StatsRow)
    (fromStr toStr : String) (days : ℚ) : SummaryResponse :=
  let items := companies.map
    (fun c => { company := c, totals := rangeTotals stats c.id fromStr toStr : SummaryItem })
  { range_from := fromStr, range_to := toStr, range_days := days
    items := List.insertionSort viewsDescRel items }

/-- A JavaScript number as produced by Number(...) on the days query
parameter: a finite value (modelled as a rational) or one of the non-finite
values NaN, Infinity and -Infinity. -/
inductive JSNum where
  | num (q : ℚ)
  | nan
  | inf
  | negInf
deriving DecidableEq

/-- The expression Number(searchParams.get("days") || "30") on line 215 of
src/reports-worker.ts, modelled after the string conversion: an absent (or
empty, hence falsy) parameter takes the default string "30", which converts
to the number 30; otherwise the conversion result is given directly. -/
def daysInput (param : Option JSNum) : JSNum :=
  param.getD (.num 30)

/-- Line 216 of src/reports-worker.ts: keep the parsed value only when it is
finite and strictly positive, otherwise fall back to 30. -/
def resolveDays (param : Option JSNum) : ℚ :=
  match daysInput param with
  | .num q => if 0 < q then q else 30
  | _ => 30

/-- Milliseconds per day, the factor 24 * 60 * 60 * 1000 of line 223. -/
def msPerDay : ℤ := 24 * 60 * 60 * 1000

/-- Truncation toward zero of a rational, the integer time value a JavaScript
Date stores for a possibly fractional millisecond argument. -/
def jsTrunc (q : ℚ) : ℤ :=
  if q < 0 then -⌊-q⌋ else ⌊q⌋

/-- Largest absolute time value a JavaScript Date can hold, 8.64e15
milliseconds around the epoch. A constructor argument beyond this bound is
clipped to NaN and the Date becomes invalid. -/
def maxTimeValue : ℤ := 8640000000000000

/-- Epoch day of 0000-01-01, the first calendar day that toISOString prints
in the simple four-digit YYYY-MM-DD format. -/
def minSimpleFormatDay : ℤ := -719528

/-- Epoch day of 9999-12-31, the last calendar day that toISOString prints
in the simple four-digit YYYY-MM-DD format; instants outside years 0000 to
9999 use the expanded six-digit year format with a leading sign. -/
def maxSimpleFormatDay : ℤ := 2932896

/-- Outcome of the from-string computation
fromDate.toISOString().slice(0, 10) of lines 222 to 226 of
src/reports-worker.ts: an invalid Date makes toISOString throw a RangeError,
which leaves the handler as an uncaught error; a valid instant outside years
0000 to 9999 prints in the expanded year format, so its first ten characters
are not a calendar day; within the era the slice is exactly the YYYY-MM-DD
of the computed epoch day. -/
inductive FromDayResult where
  | rangeError
  | expandedYear (day : ℤ)
  | day (day : ℤ)
deriving DecidableEq

/-- The millisecond instant toDate.getTime() - (days - 1) * 86400000 of line
223, before the Date constructor stores it. -/
def rangeFromMs (today : ℤ) (days : ℚ) : ℚ :=
  ((today * msPerDay : ℤ) : ℚ) - (days - 1) * ((msPerDay : ℤ) : ℚ)

/-- The UTC calendar day of the from instant: the Date stores the truncated
time value, and the day component of its ISO rendering is the floor of that
integer divided by the length of a day. -/
def rangeFromEpochDay (today : ℤ) (days : ℚ) : ℤ :=
  ⌊((jsTrunc (rangeFromMs today days) : ℤ) : ℚ) / ((msPerDay : ℤ) : ℚ)⌋

/-- The from-day computation of lines 219 to 226 with the Date semantics of
the runtime: a time value beyond plus or minus 8.64e15 milliseconds clips to
an invalid Date whose toISOString throws a RangeError; a valid instant
outside years 0000 to 9999 renders in the expanded year format, so
slice(0, 10) is not the calendar day; within the era the slice is the
calendar day of the computed epoch day. -/
def rangeFromDay (today : ℤ) (days : ℚ) : FromDayResult :=
  if (maxTimeValue : ℚ) < rangeFromMs today days ∨
      rangeFromMs today days < -(maxTimeValue : ℚ) then
    FromDayResult.rangeError
  else if minSimpleFormatDay ≤ rangeFromEpochDay today days ∧
      rangeFromEpochDay today days ≤ maxSimpleFormatDay then
    FromDayResult.day (rangeFromEpochDay today days)
  else
    FromDayResult.expandedYear (rangeFromEpochDay today days)

/-- The to-day of the resolved range is todays UTC calendar day itself. -/
def rangeToDay (today : ℤ) : ℤ :=
  today

/-- The days parameter is well formed exactly when it parsed to a finite,
strictly positive number. -/
def isPosFiniteParam : Option JSNum → Bool
  | some (.num q) => decide (0 < q)
  | some _ => false
  | none => false

/-- Projection of the counter named by an event type out of a Totals value;
an unrecognized type names no counter and yields 0. -/
def getCounter (t : String) (a : Totals) : Nat :=
  match t with
  | "PROFILE_VIEW" => a.views_profile
  | "SEARCH_IMPRESSION" => a.impressions_search
  | "MAP_IMPRESSION" => a.impressions_map
  | "CLICK_PHONE" => a.clicks_phone
  | "CLICK_SITE" => a.clicks_site
  | "CLICK_EMAIL" => a.clicks_email
  | "CLICK_DIRECTIONS" => a.clicks_directions
  | "FORM_SUBMIT" => a.leads_form
  | _ => emptyTotals.views_profile

/-- Totals whose counter for the given event type is n and whose other seven
counters are 0; for an unrecognized type, all eight counters are 0. -/
def bumpN (t : String) (n : Nat) : Totals :=
  match t with
  | "PROFILE_VIEW" => { emptyTotals with views_profile := n }
  | "SEARCH_IMPRESSION" => { emptyTotals with impressions_search := n }
  | "MAP_IMPRESSION" => { emptyTotals with impressions_map := n }
  | "CLICK_PHONE" => { emptyTotals with clicks_phone := n }
  | "CLICK_SITE" => { emptyTotals with clicks_site := n }
  | "CLICK_EMAIL" => { emptyTotals with clicks_email := n }
  | "CLICK_DIRECTIONS" => { emptyTotals with clicks_directions := n }
  | "FORM_SUBMIT" => { emptyTotals with leads_form := n }
  | _ => emptyTotals

/-- The aggregation key of a valid event, companyId stringified and joined
with the date slice by a colon. -/
def keyStr (e : QueueEvent) : String :=
  e.companyId.keyString ++ ":" ++ dateSlice (e.createdAt.getD "")

/-- The grouping key of an event: none when the required-field guard drops
the event, otherwise the companyId:date key string. -/
def eventKey (e : QueueEvent) : Option String :=
  if validEvent e then some (keyStr e) else none

/-- Number of events of the batch that pass the required-field guard, carry
the given grouping key, and have the given type. -/
def countValid (messages : List QueueEvent) (k t : String) : Nat :=
  messages.countP (fun e => eventKey e == some k && e.type == t)

/-- The counter stored in the aggregates mapping for a grouping key and an
event type; 0 when the mapping has no delta for the key. -/
def counterAt (m : AggMap) (k t : String) : Nat :=
  match lookupAgg m k with
  | none => 0
  | some d => getCounter t d.totals

/-- The delta an event turns the entry of its own key into, as a function of
the previous entry: a missing entry starts from all counters zero, then the
switch on the event type is applied. -/
def stepDelta (e : QueueEvent) (o : Option Delta) : Delta :=
  let date := dateSlice (e.createdAt.getD "")
  let base := o.getD { companyId := e.companyId, date := date, totals := emptyTotals }
  { base with totals := applyType e.type base.totals }

section Helpers

lemma lookupAgg_setAgg_self (m : AggMap) (k : String) (d : Delta) :
    lookupAgg (setAgg m k d) k = some d := by
  induction m with
  | nil => simp [setAgg, lookupAgg]
  | cons p rest ih =>
      obtain ⟨k₁, x⟩ := p
      by_cases h : k₁ = k
      · simp [setAgg, h, lookupAgg]
      · simp [setAgg, h, lookupAgg, ih]

lemma lookupAgg_setAgg_ne (m : AggMap) (k₁ k₂ : String) (d : Delta)
    (h : k₁ ≠ k₂) :
    lookupAgg (setAgg m k₁ d) k₂ = lookupAgg m k₂ := by
  induction m with
  | nil => simp [setAgg, lookupAgg, h]
  | cons p rest ih =>
      obtain ⟨k₀, x⟩ := p
      by_cases h0 : k₀ = k₁
      · subst h0
        simp [setAgg, lookupAgg, h]
      · by_cases h2 : k₀ = k₂
        · simp [setAgg, h0, lookupAgg, h2, Ne.symm h]
        · simp [setAgg, h0, lookupAgg, h2, ih]

lemma processEvent_invalid {e : QueueEvent} (m : AggMap)
    (h : validEvent e = false) :
    processEvent m e = m := by
  simp [processEvent, h]

lemma processEvent_valid {e : QueueEvent} (m : AggMap)
    (h : validEvent e = true) :
    processEvent m e = setAgg m (keyStr e) (stepDelta e (lookupAgg m (keyStr e))) := by
  simp [processEvent, h, keyStr, stepDelta]

lemma lookupAgg_processEvent_other {e : QueueEvent} (m : AggMap) (k : String)
    (h : eventKey e ≠ some k) :
    lookupAgg (processEvent m e) k = lookupAgg m k := by
  by_cases hv : validEvent e
  · rw [processEvent_valid m hv]
    have hk : keyStr e ≠ k := by
      intro hk
      exact h (by simp [eventKey, hv, hk])
    exact lookupAgg_setAgg_ne _ _ _ _ hk
  · rw [processEvent_invalid m (by simpa using hv)]

lemma lookupAgg_processEvent_same {e : QueueEvent} (m : AggMap) (k : String)
    (h : eventKey e = some k) :
    lookupAgg (processEvent m e) k = some (stepDelta e (lookupAgg m k)) := by
  have hv : validEvent e = true := by
    cases hvv : validEvent e with
    | false => simp [eventKey, hvv] at h
    | true => rfl
  have hk : keyStr e = k := by
    simpa [eventKey, hv] using h
  subst hk
  rw [processEvent_valid m hv]
  exact lookupAgg_setAgg_self _ _ _

lemma writeDeltas_ok_iff (f : Delta → Bool) (m : AggMap) :
    (∃ ws, writeDeltas f m = .ok ws) ↔ ∀ p ∈ m, f p.2 = true := by
  induction m with
  | nil => simp [writeDeltas]
  | cons p rest ih =>
      obtain ⟨k, d⟩ := p
      by_cases hd : f d = true
      · cases hrec : writeDeltas f rest with
        | ok ws =>
            constructor
            · intro _ q hq
              rcases List.mem_cons.mp hq with h | h
              · subst h; exact hd
              · exact (ih.mp ⟨ws, hrec⟩) q h
            · intro _
              refine ⟨d :: ws, ?_⟩
              simp [writeDeltas, hd, hrec]
        | error ws =>
            constructor
            · rintro ⟨ws2, h2⟩
              rw [writeDeltas, if_pos hd, hrec] at h2
              exact Except.noConfusion h2
            · intro hall
              exfalso
              rcases ih.mpr (fun q hq => hall q (List.mem_cons_of_mem _ hq)) with ⟨ws2, h2⟩
              rw [h2] at hrec
              exact Except.noConfusion hrec
      · constructor
        · rintro ⟨ws, h2⟩
          rw [writeDeltas, if_neg hd] at h2
          exact Except.noConfusion h2
        · intro hall
          exact absurd (hall (k, d) (List.mem_cons_self _ _)) (by simpa using hd)

/-- Claim C2: the coordinator acknowledges every message of the batch exactly
when every delta upsert succeeded; when any upsert fails it acknowledges no
message, including those whose deltas were already written, and rethrows the
failure to the transport. -/
theorem queue_ack_all_or_nothing (writeOk : Delta → Bool)
    (messages : List QueueEvent) :
    ((queue writeOk messages).threw = false ↔
      ∀ p ∈ aggregate messages, writeOk p.2 = true) ∧
    ((queue writeOk messages).threw = false →
      (queue writeOk messages).acked = messages.length) ∧
    ((queue writeOk messages).threw = true →
      (queue writeOk messages).acked = 0) := by
  cases h : writeDeltas writeOk (aggregate messages) with
  | ok ws =>
      have hall := (writeDeltas_ok_iff writeOk (aggregate messages)).mp ⟨ws, h⟩
      have hq : queue writeOk messages =
          { written := ws, acked := messages.length, threw := false } := by
        rw [queue, h]
      rw [hq]
      exact ⟨⟨fun _ => hall, fun _ => rfl⟩, fun _ => rfl, fun hc => Bool.noConfusion hc⟩
  | error ws =>
      have hnot : ¬ ∀ p ∈ aggregate messages, writeOk p.2 = true := by
        intro hall
        rcases (writeDeltas_ok_iff writeOk (aggregate messages)).mpr hall with ⟨ws2, h2⟩
        rw [h2] at h
        exact Except.noConfusion h
      have hq : queue writeOk messages =
          { written := ws, acked := 0, threw := true } := by
        rw [queue, h]
      rw [hq]
      exact ⟨⟨fun hc => Bool.noConfusion hc, fun hall => (hnot hall).elim⟩,
        fun hc => Bool.noConfusion hc, fun _ => rfl⟩

/-- Witness for C2: a batch whose single delta fails to upsert acknowledges
zero messages. -/
theorem queue_ack_all_or_nothing_witness :
    (queue (fun d => d.date != "2024-01-02")
      [{ companyId := JSVal.str "a", type := "PROFILE_VIEW",
         createdAt := some "2024-01-02T00:00:00Z" }]).acked = 0 :=
  (queue_ack_all_or_nothing (fun d => d.date != "2024-01-02")
    [{ companyId := JSVal.str "a", type := "PROFILE_VIEW",
       createdAt := some "2024-01-02T00:00:00Z" }]).2.2 (by rfl)

lemma aggregate_key_go (k : String) :
    ∀ (msgs : List QueueEvent) (m₁ m₂ : AggMap),
      lookupAgg m₁ k = lookupAgg m₂ k →
      lookupAgg (List.foldl processEvent m₁ msgs) k =
        lookupAgg
          (List.foldl processEvent m₂ (msgs.filter (fun e => eventKey e == some k))) k := by
  intro msgs
  induction msgs with
  | nil =>
      intro m₁ m₂ h
      simpa using h
  | cons e rest ih =>
      intro m₁ m₂ h
      by_cases hk : eventKey e = some k
      · have hfil : (e :: rest).filter (fun x => eventKey x == some k) =
            e :: rest.filter (fun x => eventKey x == some k) := by
          simp [List.filter_cons, hk]
        rw [hfil, List.foldl_cons, List.foldl_cons]
        apply ih
        rw [lookupAgg_processEvent_same m₁ k hk, lookupAgg_processEvent_same m₂ k hk, h]
      · have hfil : (e :: rest).filter (fun x => eventKey x == some k) =
            rest.filter (fun x => eventKey x == some k) := by
          simp [List.filter_cons, hk]
        rw [hfil, List.foldl_cons]
        apply ih
        rw [lookupAgg_processEvent_other m₁ k hk]
        exact h

/-- Claim C8: the delta stored for a grouping key depends only on the events
of the batch that map to that key; events of other keys, and events dropped
by the required-field guard, never affect it. -/
theorem aggregate_cross_key_isolation (messages : List QueueEvent) (k : String) :
    lookupAgg (aggregate messages) k =
      lookupAgg (aggregate (messages.filter (fun e => eventKey e == some k))) k :=
  aggregate_key_go k messages [] [] rfl

/-- Claim C10: an event whose companyId is present but falsy, the number 0 or
the empty string, is dropped by the truthiness guard exactly as if the field
were missing, and contributes to no delta. -/
theorem aggregate_drops_falsy_companyId (pre post : List QueueEvent)
    (e : QueueEvent)
    (h : e.companyId = JSVal.num 0 ∨ e.companyId = JSVal.str "") :
    aggregate (pre ++ e :: post) = aggregate (pre ++ post) ∧
    aggregate (pre ++ e :: post) =
      aggregate (pre ++ { e with companyId := JSVal.undef } :: post) := by
  have hv : validEvent e = false := by
    rcases h with h | h <;> simp [validEvent, h, JSVal.truthy]
  have hv2 : validEvent { e with companyId := JSVal.undef } = false := by
    simp [validEvent, JSVal.truthy]
  constructor <;>
    simp [aggregate, List.foldl_append, processEvent_invalid _ hv,
      processEvent_invalid _ hv2]

/-- Witness for C10: a concrete two-event batch where the second event has
companyId 0 aggregates exactly like the batch without it. -/
theorem aggregate_drops_falsy_companyId_witness :
    aggregate [{ companyId := JSVal.str "a", type := "PROFILE_VIEW",
                 createdAt := some "2024-01-02T00:00:00Z" },
               { companyId := JSVal.num 0, type := "PROFILE_VIEW",
                 createdAt := some "2024-01-02T00:00:00Z" }] =
      aggregate [{ companyId := JSVal.str "a", type := "PROFILE_VIEW",
                   createdAt := some "2024-01-02T00:00:00Z" }] :=
  (aggregate_drops_falsy_companyId
    [{ companyId := JSVal.str "a", type := "PROFILE_VIEW",
       createdAt := some "2024-01-02T00:00:00Z" }] []
    { companyId := JSVal.num 0, type := "PROFILE_VIEW",
      createdAt := some "2024-01-02T00:00:00Z" } (Or.inl rfl)).1

lemma bumpN_zero (t : String) : bumpN t 0 = emptyTotals := by
  unfold bumpN
  split <;> rfl

lemma applyType_bumpN (t : String) (ht : t ∈ recognizedTypes) (n : Nat) :
    applyType t (bumpN t n) = bumpN t (n + 1) := by
  have ht2 : t = "PROFILE_VIEW" ∨ t = "SEARCH_IMPRESSION" ∨ t = "MAP_IMPRESSION" ∨
      t = "CLICK_PHONE" ∨ t = "CLICK_SITE" ∨ t = "CLICK_EMAIL" ∨
      t = "CLICK_DIRECTIONS" ∨ t = "FORM_SUBMIT" := by
    simpa [recognizedTypes] using ht
  rcases ht2 with rfl | rfl | rfl | rfl | rfl | rfl | rfl | rfl <;> rfl

lemma applyType_empty (t : String) (ht : t ∈ recognizedTypes) :
    applyType t emptyTotals = bumpN t 1 := by
  rw [← bumpN_zero t]
  exact applyType_bumpN t ht 0

lemma uniform_validEvent {v : JSVal} {e : QueueEvent} {s : String}
    (hv : v.truthy = true) (he1 : e.companyId = v) (hs1 : e.createdAt = some s)
    (hs2 : s ≠ "") :
    validEvent e = true := by
  simp [validEvent, he1, hs1, createdAtTruthy, hv, hs2]

lemma uniform_keyStr {v : JSVal} {e : QueueEvent} {s d : String}
    (he1 : e.companyId = v) (hs1 : e.createdAt = some s)
    (hs3 : dateSlice s = d) :
    keyStr e = v.keyString ++ ":" ++ d := by
  simp [keyStr, he1, hs1, hs3]

lemma aggregate_uniform_go (v : JSVal) (t d : String)
    (hv : v.truthy = true) (ht : t ∈ recognizedTypes) :
    ∀ (msgs : List QueueEvent),
      (∀ e ∈ msgs, e.companyId = v ∧ e.type = t ∧
        ∃ s, e.createdAt = some s ∧ s ≠ "" ∧ dateSlice s = d) →
      ∀ n, List.foldl processEvent
          [(v.keyString ++ ":" ++ d,
            { companyId := v, date := d, totals := bumpN t n })] msgs =
        [(v.keyString ++ ":" ++ d,
          { companyId := v, date := d, totals := bumpN t (n + msgs.length) })] := by
  intro msgs
  induction msgs with
  | nil => intro _ n; simp
  | cons e rest ih =>
      intro hall n
      obtain ⟨he1, he2, s, hs1, hs2, hs3⟩ := hall e (List.mem_cons_self _ _)
      have hval := uniform_validEvent hv he1 hs1 hs2
      have hkey := uniform_keyStr he1 hs1 hs3
      rw [List.foldl_cons, processEvent_valid _ hval, hkey]
      have hstep :
          setAgg [(v.keyString ++ ":" ++ d,
              { companyId := v, date := d, totals := bumpN t n })]
            (v.keyString ++ ":" ++ d)
            (stepDelta e (lookupAgg [(v.keyString ++ ":" ++ d,
              { companyId := v, date := d, totals := bumpN t n })]
              (v.keyString ++ ":" ++ d))) =
          [(v.keyString ++ ":" ++ d,
            { companyId := v, date := d, totals := bumpN t (n + 1) })] := by
        rw [show lookupAgg [(v.keyString ++ ":" ++ d,
            { companyId := v, date := d, totals := bumpN t n })]
            (v.keyString ++ ":" ++ d) =
            some { companyId := v, date := d, totals := bumpN t n } from by
          simp [lookupAgg]]
        simp [setAgg, stepDelta, he2, applyType_bumpN t ht n]
      rw [hstep, ih (fun x hx => hall x (List.mem_cons_of_mem _ hx)) (n + 1)]
      have hlen : n + 1 + rest.length = n + (e :: rest).length := by
        simp [List.length_cons]
        omega
      rw [hlen]

/-- Claim C1: a nonempty batch of valid events that all share the same
companyId, the same calendar day and the same recognized type aggregates to
exactly one delta, keyed by that company and day, whose counter for that
type equals the batch size and whose other seven counters are zero. -/
theorem aggregate_uniform_batch (messages : List QueueEvent) (v : JSVal)
    (d t : String) (hv : v.truthy = true) (ht : t ∈ recognizedTypes)
    (hne : messages ≠ [])
    (hall : ∀ e ∈ messages, e.companyId = v ∧ e.type = t ∧
      ∃ s, e.createdAt = some s ∧ s ≠ "" ∧ dateSlice s = d) :
    aggregate messages =
      [(v.keyString ++ ":" ++ d,
        { companyId := v, date := d, totals := bumpN t messages.length })] := by
  cases messages with
  | nil => exact absurd rfl hne
  | cons e rest =>
      obtain ⟨he1, he2, s, hs1, hs2, hs3⟩ := hall e (List.mem_cons_self _ _)
      have hval := uniform_validEvent hv he1 hs1 hs2
      have hkey := uniform_keyStr he1 hs1 hs3
      have hstep : processEvent [] e =
          [(v.keyString ++ ":" ++ d,
            { companyId := v, date := d, totals := bumpN t 1 })] := by
        rw [processEvent_valid [] hval, hkey]
        simp [setAgg, stepDelta, lookupAgg, he1, he2]
        constructor
        · simpa [hs1] using hs3
        · exact applyType_empty t ht
      rw [show aggregate (e :: rest) =
          List.foldl processEvent (processEvent [] e) rest from rfl, hstep,
        aggregate_uniform_go v t d hv ht rest
          (fun x hx => hall x (List.mem_cons_of_mem _ hx)) 1]
      have hlen : 1 + rest.length = (e :: rest).length := by
        simp [List.length_cons]
        omega
      rw [hlen]

/-- Witness for C1: two profile-view events for company 3 on the same day
aggregate to the single delta with views_profile 2 and the other counters
zero. -/
theorem aggregate_uniform_batch_witness :
    aggregate
      [{ companyId := JSVal.num 3, type := "PROFILE_VIEW",
         createdAt := some "2024-01-02T10:00:00Z" },
       { companyId := JSVal.num 3, type := "PROFILE_VIEW",
         createdAt := some "2024-01-02T11:30:00Z" }] =
      [("3:2024-01-02",
        { companyId := JSVal.num 3, date := "2024-01-02",
          totals := bumpN "PROFILE_VIEW" 2 })] := by
  have h := aggregate_uniform_batch
    [{ companyId := JSVal.num 3, type := "PROFILE_VIEW",
       createdAt := some "2024-01-02T10:00:00Z" },
     { companyId := JSVal.num 3, type := "PROFILE_VIEW",
       createdAt := some "2024-01-02T11:30:00Z" }]
    (JSVal.num 3) "2024-01-02" "PROFILE_VIEW" (by decide) (by decide)
    (by decide)
    (by
      intro e he
      fin_cases he
      · exact ⟨rfl, rfl, "2024-01-02T10:00:00Z", rfl, by decide, by decide⟩
      · exact ⟨rfl, rfl, "2024-01-02T11:30:00Z", rfl, by decide, by decide⟩)
  rw [h]
  rfl

lemma getCounter_empty (t : String) : getCounter t emptyTotals = 0 := by
  unfold getCounter
  split <;> rfl

lemma getCounter_applyType (t tp : String) (ht : t ∈ recognizedTypes)
    (a : Totals) :
    getCounter t (applyType tp a) = getCounter t a + (if tp = t then 1 else 0) := by
  have ht2 : t = "PROFILE_VIEW" ∨ t = "SEARCH_IMPRESSION" ∨ t = "MAP_IMPRESSION" ∨
      t = "CLICK_PHONE" ∨ t = "CLICK_SITE" ∨ t = "CLICK_EMAIL" ∨
      t = "CLICK_DIRECTIONS" ∨ t = "FORM_SUBMIT" := by
    simpa [recognizedTypes] using ht
  rcases ht2 with rfl | rfl | rfl | rfl | rfl | rfl | rfl | rfl <;>
    · unfold applyType
      split <;> simp_all [getCounter]

lemma counterAt_processEvent (t : String) (ht : t ∈ recognizedTypes)
    (m : AggMap) (e : QueueEvent) (k : String) :
    counterAt (processEvent m e) k t =
      counterAt m k t +
        (if eventKey e == some k && e.type == t then 1 else 0) := by
  by_cases hv : validEvent e = true
  · by_cases hk : keyStr e = k
    · have hek : eventKey e = some k := by simp [eventKey, hv, hk]
      rw [counterAt, lookupAgg_processEvent_same m k hek]
      cases hm : lookupAgg m k with
      | none =>
          simp [counterAt, hm, stepDelta,
            getCounter_applyType t e.type ht, getCounter_empty, hek]
      | some δ =>
          simp [counterAt, hm, stepDelta,
            getCounter_applyType t e.type ht, hek]
    · have hek : eventKey e ≠ some k := by simp [eventKey, hv, hk]
      rw [counterAt, lookupAgg_processEvent_other m k hek]
      have hcond : (eventKey e == some k) = false := by
        simp [eventKey, hv, hk]
      simp [hcond, counterAt]
  · rw [processEvent_invalid m (by simpa using hv)]
    have hek : eventKey e = none := by simp [eventKey, hv]
    simp [hek]

lemma counterAt_aggregate_go (t : String) (ht : t ∈ recognizedTypes)
    (k : String) :
    ∀ (msgs : List QueueEvent) (m : AggMap),
      counterAt (List.foldl processEvent m msgs) k t =
        counterAt m k t + countValid msgs k t := by
  intro msgs
  induction msgs with
  | nil => intro m; simp [countValid]
  | cons e rest ih =>
      intro m
      rw [List.foldl_cons, ih (processEvent m e),
        counterAt_processEvent t ht m e k]
      cases hcond : (eventKey e == some k && e.type == t) with
      | false =>
          simp [countValid, List.countP_cons, hcond]
      | true =>
          simp [countValid, List.countP_cons, hcond]
          omega

/-- Claim C4: events missing a required field and events with an
unrecognized type are skipped without failing the batch: every recognized
counter of every delta counts exactly the valid events of its key and type,
and with a healthy store the batch still writes and acknowledges all its
messages. -/
theorem batch_skips_invalid_events (writeOk : Delta → Bool)
    (messages : List QueueEvent) (hok : ∀ δ : Delta, writeOk δ = true) :
    (queue writeOk messages).acked = messages.length ∧
    (queue writeOk messages).threw = false ∧
    ∀ k t, t ∈ recognizedTypes →
      counterAt (aggregate messages) k t = countValid messages k t := by
  have hall : ∀ p ∈ aggregate messages, writeOk p.2 = true := fun p _ => hok p.2
  rcases (writeDeltas_ok_iff writeOk (aggregate messages)).mpr hall with ⟨ws, h⟩
  have hq : queue writeOk messages =
      { written := ws, acked := messages.length, threw := false } := by
    rw [queue, h]
  refine ⟨by rw [hq], by rw [hq], ?_⟩
  intro k t htr
  have hgo := counterAt_aggregate_go t htr k messages []
  simpa [aggregate, counterAt, lookupAgg] using hgo

/-- Witness for C4: the interleaved batch of three valid profile views, one
event with a missing companyId and one event with an unknown type
acknowledges all five messages and counts exactly the three valid events. -/
theorem batch_skips_invalid_events_witness :
    (queue (fun _ => true)
      [{ companyId := JSVal.str "a", type := "PROFILE_VIEW",
         createdAt := some "2024-01-02T00:00:01Z" },
       { companyId := JSVal.undef, type := "PROFILE_VIEW",
         createdAt := some "2024-01-02T00:00:02Z" },
       { companyId := JSVal.str "a", type := "PROFILE_VIEW",
         createdAt := some "2024-01-02T00:00:03Z" },
       { companyId := JSVal.str "a", type := "WEIRD_TYPE",
         createdAt := some "2024-01-02T00:00:04Z" },
       { companyId := JSVal.str "a", type := "PROFILE_VIEW",
         createdAt := some "2024-01-02T00:00:05Z" }]).acked = 5 ∧
    counterAt
      (aggregate
        [{ companyId := JSVal.str "a", type := "PROFILE_VIEW",
           createdAt := some "2024-01-02T00:00:01Z" },
         { companyId := JSVal.undef, type := "PROFILE_VIEW",
           createdAt := some "2024-01-02T00:00:02Z" },
         { companyId := JSVal.str "a", type := "PROFILE_VIEW",
           createdAt := some "2024-01-02T00:00:03Z" },
         { companyId := JSVal.str "a", type := "WEIRD_TYPE",
           createdAt := some "2024-01-02T00:00:04Z" },
         { companyId := JSVal.str "a", type := "PROFILE_VIEW",
           createdAt := some "2024-01-02T00:00:05Z" }])
      "a:2024-01-02" "PROFILE_VIEW" = 3 := by
  have h := batch_skips_invalid_events (fun _ => true)
    [{ companyId := JSVal.str "a", type := "PROFILE_VIEW",
       createdAt := some "2024-01-02T00:00:01Z" },
     { companyId := JSVal.undef, type := "PROFILE_VIEW",
       createdAt := some "2024-01-02T00:00:02Z" },
     { companyId := JSVal.str "a", type := "PROFILE_VIEW",
       createdAt := some "2024-01-02T00:00:03Z" },
     { companyId := JSVal.str "a", type := "WEIRD_TYPE",
       createdAt := some "2024-01-02T00:00:04Z" },
     { companyId := JSVal.str "a", type := "PROFILE_VIEW",
       createdAt := some "2024-01-02T00:00:05Z" }] (fun _ => rfl)
  refine ⟨h.1, ?_⟩
  rw [h.2.2 "a:2024-01-02" "PROFILE_VIEW" (by decide)]
  rfl

/-- Claim C9: a batch whose events carry both required fields but only
unrecognized types still creates one all-zero delta per distinct
(companyId, day), and the coordinator upserts each of those all-zero deltas,
so a stats row can be created for a day that received no recognized event.
Shown on a concrete two-day batch of unknown-type events. -/
theorem zero_delta_rows_upserted :
    aggregate
      [{ companyId := JSVal.num 7, type := "LEGACY_TYPE",
         createdAt := some "2024-05-06T12:00:00Z" },
       { companyId := JSVal.num 7, type := "OTHER_TYPE",
         createdAt := some "2024-05-07T01:02:03Z" }] =
      [("7:2024-05-06",
        { companyId := JSVal.num 7, date := "2024-05-06", totals := emptyTotals }),
       ("7:2024-05-07",
        { companyId := JSVal.num 7, date := "2024-05-07", totals := emptyTotals })] ∧
    queue (fun _ => true)
      [{ companyId := JSVal.num 7, type := "LEGACY_TYPE",
         createdAt := some "2024-05-06T12:00:00Z" },
       { companyId := JSVal.num 7, type := "OTHER_TYPE",
         createdAt := some "2024-05-07T01:02:03Z" }] =
      { written :=
          [{ companyId := JSVal.num 7, date := "2024-05-06", totals := emptyTotals },
           { companyId := JSVal.num 7, date := "2024-05-07", totals := emptyTotals }],
        acked := 2, threw := false } := by
  constructor <;> rfl

lemma charsLe_total : ∀ a b : List Char, charsLe a b = true ∨ charsLe b a = true := by
  intro a
  induction a with
  | nil => intro b; left; rfl
  | cons x xs ih =>
      intro b
      cases b with
      | nil => right; rfl
      | cons y ys =>
          by_cases hxy : x = y
          · subst hxy
            rcases ih ys with h | h
            · left; simpa [charsLe] using h
            · right; simpa [charsLe] using h
          · rcases lt_or_gt_of_ne hxy with h | h
            · left; simp [charsLe, hxy, h]
            · right; simp [charsLe, Ne.symm hxy, h]

lemma charsLe_trans : ∀ a b c : List Char,
    charsLe a b = true → charsLe b c = true → charsLe a c = true := by
  intro a
  induction a with
  | nil => intro b c _ _; rfl
  | cons x xs ih =>
      intro b c h1 h2
      cases b with
      | nil => simp [charsLe] at h1
      | cons y ys =>
          cases c with
          | nil => simp [charsLe] at h2
          | cons z zs =>
              by_cases hxy : x = y
              · subst hxy
                by_cases hyz : x = z
                · subst hyz
                  simp only [charsLe, if_pos rfl] at h1 h2 ⊢
                  exact ih ys zs h1 h2
                · simp [charsLe, hyz] at h2 ⊢
                  exact h2
              · by_cases hyz : y = z
                · subst hyz
                  simpa [charsLe, hxy] using h1
                · simp [charsLe, hxy] at h1
                  simp [charsLe, hyz] at h2
                  have hxz : x < z := lt_trans h1 h2
                  simp [charsLe, ne_of_lt hxz, hxz]

lemma strLe_total (s t : String) : strLe s t = true ∨ strLe t s = true :=
  charsLe_total s.data t.data

lemma strLe_trans {a b c : String} (h1 : strLe a b = true)
    (h2 : strLe b c = true) : strLe a c = true :=
  charsLe_trans a.data b.data c.data h1 h2

instance : IsTotal StatsRow dateLeRow :=
  ⟨fun a b => strLe_total a.date b.date⟩

instance : IsTrans StatsRow dateLeRow :=
  ⟨fun _ _ _ hab hbc => strLe_trans hab hbc⟩

instance : IsTotal SummaryItem viewsDescRel :=
  ⟨fun a b => Nat.le_total b.totals.views_profile a.totals.views_profile⟩

instance : IsTrans SummaryItem viewsDescRel :=
  ⟨fun _ _ _ hab hbc => le_trans hbc hab⟩

lemma report_fold_snd (rows : List StatsRow) :
    ∀ (t₀ : Totals) (l₀ : List DailyItem),
      (rows.foldl
        (fun (p : Totals × List DailyItem) r =>
          (addTotals p.1 r.totals, p.2 ++ [{ date := r.date, totals := r.totals }]))
        (t₀, l₀)).2 =
      l₀ ++ rows.map (fun r => { date := r.date, totals := r.totals : DailyItem }) := by
  induction rows with
  | nil => intro t₀ l₀; simp
  | cons r rest ih =>
      intro t₀ l₀
      rw [List.foldl_cons, ih]
      simp

lemma report_fold_fst (rows : List StatsRow) :
    ∀ (t₀ : Totals) (l₀ : List DailyItem),
      (rows.foldl
        (fun (p : Totals × List DailyItem) r =>
          (addTotals p.1 r.totals, p.2 ++ [{ date := r.date, totals := r.totals }]))
        (t₀, l₀)).1 =
      rows.foldl (fun a r => addTotals a r.totals) t₀ := by
  induction rows with
  | nil => intro t₀ l₀; rfl
  | cons r rest ih =>
      intro t₀ l₀
      rw [List.foldl_cons, ih, List.foldl_cons]

lemma sumTotals_map_rows (rows : List StatsRow) :
    sumTotals (rows.map (fun r => { date := r.date, totals := r.totals })) =
      rows.foldl (fun a r => addTotals a r.totals) emptyTotals := by
  simp [sumTotals, List.foldl_map]

lemma getEntityReport_found (companies : List CompanyMeta)
    (stats : List StatsRow) (slug fromStr toStr : String) (days : ℚ)
    (c : CompanyMeta) (hs : ¬ slug = "")
    (hf : companies.find? (fun x => x.slug == slug) = some c) :
    getEntityReport companies stats slug fromStr toStr days =
      .ok { company := c, range_from := fromStr, range_to := toStr
            range_days := days
            totals := (queryRange stats c.id fromStr toStr).foldl
              (fun a row => addTotals a row.totals) emptyTotals
            daily := (queryRange stats c.id fromStr toStr).map
              (fun row => { date := row.date, totals := row.totals }) } := by
  rw [getEntityReport, if_neg hs, hf]
  have h1 := report_fold_fst (queryRange stats c.id fromStr toStr) emptyTotals []
  have h2 := report_fold_snd (queryRange stats c.id fromStr toStr) emptyTotals []
  simp only [List.nil_append] at h2
  simp only [Except.ok.injEq, CompanyReport.mk.injEq]
  exact ⟨trivial, trivial, trivial, trivial, h1, h2⟩

/-- Claim C3: a successful entity report lists exactly the stored rows of
the range ordered by day ascending, omitting absent days, and its totals
are the component-wise sum of that daily list. -/
theorem entity_report_daily_and_totals (companies : List CompanyMeta)
    (stats : List StatsRow) (slug fromStr toStr : String) (days : ℚ)
    (r : CompanyReport)
    (h : getEntityReport companies stats slug fromStr toStr days = .ok r) :
    List.Pairwise (fun a b : DailyItem => strLe a.date b.date = true) r.daily ∧
    r.daily.Perm ((stats.filter (rowInRange r.company.id fromStr toStr)).map
      (fun row => { date := row.date, totals := row.totals })) ∧
    r.totals = sumTotals r.daily := by
  by_cases hs : slug = ""
  · rw [getEntityReport, if_pos hs] at h
    exact Except.noConfusion h
  cases hf : companies.find? (fun x => x.slug == slug) with
  | none =>
      rw [getEntityReport, if_neg hs, hf] at h
      exact Except.noConfusion h
  | some c =>
      rw [getEntityReport_found companies stats slug fromStr toStr days c hs hf] at h
      injection h with h
      subst h
      refine ⟨?_, ?_, ?_⟩
      · exact (List.sorted_insertionSort dateLeRow
          (stats.filter (rowInRange c.id fromStr toStr))).map _
          (fun a b hab => hab)
      · exact (List.perm_insertionSort dateLeRow
          (stats.filter (rowInRange c.id fromStr toStr))).map _
      · exact (sumTotals_map_rows (queryRange stats c.id fromStr toStr)).symm

/-- Witness for C3: a one-company store with one row in range yields the
singleton daily list, sorted, matching the filtered rows, and totals equal
to its sum. -/
theorem entity_report_daily_and_totals_witness :
    List.Pairwise (fun a b : DailyItem => strLe a.date b.date = true)
      [{ date := "2024-01-02", totals := bumpN "PROFILE_VIEW" 4 }] ∧
    List.Perm
      ([{ date := "2024-01-02", totals := bumpN "PROFILE_VIEW" 4 }] :
        List DailyItem)
      [{ date := "2024-01-02", totals := bumpN "PROFILE_VIEW" 4 }] ∧
    bumpN "PROFILE_VIEW" 4 =
      sumTotals [{ date := "2024-01-02", totals := bumpN "PROFILE_VIEW" 4 }] :=
  entity_report_daily_and_totals
    [{ id := 1, slug := "acme", name := "Acme", city_name := none,
       city_slug := none, country_code := none, primary_category_slug := none,
       plan_type := none }]
    [{ company_id := 1, date := "2024-01-02", totals := bumpN "PROFILE_VIEW" 4 }]
    "acme" "2024-01-01" "2024-01-30" 30
    { company :=
        { id := 1, slug := "acme", name := "Acme", city_name := none,
          city_slug := none, country_code := none,
          primary_category_slug := none, plan_type := none }
      range_from := "2024-01-01", range_to := "2024-01-30", range_days := 30
      totals := bumpN "PROFILE_VIEW" 4
      daily := [{ date := "2024-01-02", totals := bumpN "PROFILE_VIEW" 4 }] }
    (by rfl)

lemma rangeTotals_nil_filter (stats : List StatsRow) (cid : Int)
    (fromStr toStr : String)
    (hnil : stats.filter (rowInRange cid fromStr toStr) = []) :
    rangeTotals stats cid fromStr toStr = emptyTotals := by
  rw [rangeTotals, hnil]
  rfl

/-- Claim C5: the summary contains one item per entity, an entity with no
stored rows in range included with all-zero totals, every item carrying the
component-wise sum of its rows in range, and the item list ordered
descending by the profile-view counter. -/
theorem summary_ranking (companies : List CompanyMeta) (stats : List StatsRow)
    (fromStr toStr : String) (days : ℚ) :
    ((getSummary companies stats fromStr toStr days).items.map
      (fun i => i.company)).Perm companies ∧
    (∀ i ∈ (getSummary companies stats fromStr toStr days).items,
      i.totals = rangeTotals stats i.company.id fromStr toStr) ∧
    (∀ i ∈ (getSummary companies stats fromStr toStr days).items,
      stats.filter (rowInRange i.company.id fromStr toStr) = [] →
        i.totals = emptyTotals) ∧
    List.Pairwise (fun a b : SummaryItem =>
      b.totals.views_profile ≤ a.totals.views_profile)
      (getSummary companies stats fromStr toStr days).items := by
  have hmem : ∀ i ∈ (getSummary companies stats fromStr toStr days).items,
      i ∈ companies.map (fun c =>
        { company := c, totals := rangeTotals stats c.id fromStr toStr :
          SummaryItem }) := by
    intro i hi
    exact (List.mem_insertionSort viewsDescRel).mp hi
  have htot : ∀ i ∈ (getSummary companies stats fromStr toStr days).items,
      i.totals = rangeTotals stats i.company.id fromStr toStr := by
    intro i hi
    rcases List.mem_map.mp (hmem i hi) with ⟨c, _, rfl⟩
    rfl
  refine ⟨?_, htot, ?_, ?_⟩
  · have hperm := (List.perm_insertionSort viewsDescRel
      (companies.map (fun c =>
        { company := c, totals := rangeTotals stats c.id fromStr toStr :
          SummaryItem }))).map (fun i => i.company)
    rw [List.map_map] at hperm
    have hid : List.map ((fun i : SummaryItem => i.company) ∘ fun c =>
        { company := c, totals := rangeTotals stats c.id fromStr toStr :
          SummaryItem }) companies = companies := by
      have hfun : ((fun i : SummaryItem => i.company) ∘ fun c =>
          { company := c, totals := rangeTotals stats c.id fromStr toStr :
            SummaryItem }) = fun c => c := rfl
      rw [hfun]
      exact List.map_id companies
    rw [hid] at hperm
    exact hperm
  · intro i hi hnil
    rw [htot i hi]
    exact rangeTotals_nil_filter stats i.company.id fromStr toStr hnil
  · exact List.sorted_insertionSort viewsDescRel _

/-- Witness for C5: with companies A (10 views), B (30 views) and C (no rows
in range), the item built for C carries all-zero totals, and the concrete
ranking comes out B, A, C. -/
theorem summary_ranking_witness :
    ({ company :=
        { id := 3, slug := "c", name := "C", city_name := none,
          city_slug := none, country_code := none,
          primary_category_slug := none, plan_type := none }
       totals := emptyTotals : SummaryItem }).totals =
      rangeTotals
        [{ company_id := 1, date := "2024-01-05", totals := bumpN "PROFILE_VIEW" 10 },
         { company_id := 2, date := "2024-01-06", totals := bumpN "PROFILE_VIEW" 30 }]
        3 "2024-01-01" "2024-01-30" ∧
    ((getSummary
        [{ id := 1, slug := "a", name := "A", city_name := none,
           city_slug := none, country_code := none,
           primary_category_slug := none, plan_type := none },
         { id := 2, slug := "b", name := "B", city_name := none,
           city_slug := none, country_code := none,
           primary_category_slug := none, plan_type := none },
         { id := 3, slug := "c", name := "C", city_name := none,
           city_slug := none, country_code := none,
           primary_category_slug := none, plan_type := none }]
        [{ company_id := 1, date := "2024-01-05", totals := bumpN "PROFILE_VIEW" 10 },
         { company_id := 2, date := "2024-01-06", totals := bumpN "PROFILE_VIEW" 30 }]
        "2024-01-01" "2024-01-30" 30).items.map (fun i => i.company.slug)) =
      ["b", "a", "c"] := by
  constructor
  · exact (summary_ranking
      [{ id := 1, slug := "a", name := "A", city_name := none,
         city_slug := none, country_code := none,
         primary_category_slug := none, plan_type := none },
       { id := 2, slug := "b", name := "B", city_name := none,
         city_slug := none, country_code := none,
         primary_category_slug := none, plan_type := none },
       { id := 3, slug := "c", name := "C", city_name := none,
         city_slug := none, country_code := none,
         primary_category_slug := none, plan_type := none }]
      [{ company_id := 1, date := "2024-01-05", totals := bumpN "PROFILE_VIEW" 10 },
       { company_id := 2, date := "2024-01-06", totals := bumpN "PROFILE_VIEW" 30 }]
      "2024-01-01" "2024-01-30" 30).2.1 _ (by decide)
  · rfl

lemma jsTrunc_intCast (z : ℤ) : jsTrunc (z : ℚ) = z := by
  unfold jsTrunc
  split_ifs with h
  · rw [show -((z : ℤ) : ℚ) = ((-z : ℤ) : ℚ) by push_cast; ring, Int.floor_intCast]
    ring
  · exact Int.floor_intCast z

lemma rangeFromMs_int (today dz : ℤ) :
    rangeFromMs today (dz : ℚ) = (((today - (dz - 1)) * msPerDay : ℤ) : ℚ) := by
  unfold rangeFromMs
  push_cast
  ring

lemma rangeFromEpochDay_int (today dz : ℤ) :
    rangeFromEpochDay today (dz : ℚ) = today - (dz - 1) := by
  unfold rangeFromEpochDay
  rw [rangeFromMs_int, jsTrunc_intCast]
  have h2 : (((today - (dz - 1)) * msPerDay : ℤ) : ℚ) / ((msPerDay : ℤ) : ℚ) =
      ((today - (dz - 1) : ℤ) : ℚ) := by
    have hM : ((msPerDay : ℤ) : ℚ) ≠ 0 := by norm_num [msPerDay]
    field_simp
  rw [h2]
  exact Int.floor_intCast _

/-- Counterexample for C6: the days value 1000000000 is a positive finite
number, so it is kept by the resolution, yet the from instant lies beyond
the Date clamp, the Date is invalid, and toISOString throws a RangeError
instead of building the range the claim promises for every days value. -/
theorem days_param_range_error_counterexample :
    isPosFiniteParam (some (JSNum.num 1000000000)) = true ∧
    resolveDays (some (JSNum.num 1000000000)) = 1000000000 ∧
    rangeFromDay 19000 (resolveDays (some (JSNum.num 1000000000))) =
      FromDayResult.rangeError := by
  have hres : resolveDays (some (JSNum.num 1000000000)) = 1000000000 := by
    norm_num [resolveDays, daysInput]
  refine ⟨by norm_num [isPosFiniteParam], hres, ?_⟩
  rw [hres]
  have hcond : (maxTimeValue : ℚ) < rangeFromMs 19000 (1000000000 : ℚ) ∨
      rangeFromMs 19000 (1000000000 : ℚ) < -(maxTimeValue : ℚ) := by
    right
    norm_num [rangeFromMs, msPerDay, maxTimeValue]
  unfold rangeFromDay
  rw [if_pos hcond]

/-- Claim C6 (amended): the days parameter always resolves to a positive
number, to 30 whenever it is not a positive finite number, so a malformed
parameter never causes an error response; the ranges to-day is today; and
for a positive integer resolved value whose from day stays within the
four-digit-year ISO era, the from day is exactly days - 1 days earlier.
Beyond that era the code instead throws a RangeError past the Date clamp or
emits an expanded-year string whose first ten characters are not a calendar
day. -/
theorem days_param_resolution (param : Option JSNum) (today : ℤ) :
    0 < resolveDays param ∧
    (isPosFiniteParam param = false → resolveDays param = 30) ∧
    rangeToDay today = today ∧
    (∀ dz : ℤ, 0 < dz → resolveDays param = (dz : ℚ) →
      minSimpleFormatDay ≤ today - (dz - 1) →
      today - (dz - 1) ≤ maxSimpleFormatDay →
      rangeFromDay today (resolveDays param) =
        FromDayResult.day (today - (dz - 1))) := by
  refine ⟨?_, ?_, rfl, ?_⟩
  · unfold resolveDays
    cases daysInput param with
    | num q =>
        show 0 < if 0 < q then q else 30
        split_ifs with h
        · exact h
        · norm_num
    | nan => show 0 < (30 : ℚ); norm_num
    | inf => show 0 < (30 : ℚ); norm_num
    | negInf => show 0 < (30 : ℚ); norm_num
  · intro hbad
    cases hp : param with
    | none => rfl
    | some j =>
        cases j with
        | num q =>
            rw [hp] at hbad
            have hq : ¬ 0 < q := by simpa [isPosFiniteParam] using hbad
            simp [resolveDays, daysInput, hq]
        | nan => rfl
        | inf => rfl
        | negInf => rfl
  · intro dz hdz hres hlo hhi
    rw [hres]
    have hlo2 : (-719528 : ℤ) ≤ today - (dz - 1) := by
      simpa [minSimpleFormatDay] using hlo
    have hhi2 : today - (dz - 1) ≤ (2932896 : ℤ) := by
      simpa [maxSimpleFormatDay] using hhi
    have hclip : ¬ ((maxTimeValue : ℚ) < rangeFromMs today (dz : ℚ) ∨
        rangeFromMs today (dz : ℚ) < -(maxTimeValue : ℚ)) := by
      rw [rangeFromMs_int]
      rintro (h | h)
      · have h2 : maxTimeValue < (today - (dz - 1)) * msPerDay := by
          exact_mod_cast h
        have h3 : (today - (dz - 1)) * msPerDay ≤ 2932896 * msPerDay :=
          mul_le_mul_of_nonneg_right hhi2 (by norm_num [msPerDay])
        rw [maxTimeValue] at h2
        norm_num [msPerDay] at h2 h3
        linarith
      · have h2 : (today - (dz - 1)) * msPerDay < -maxTimeValue := by
          exact_mod_cast h
        have h3 : (-719528 : ℤ) * msPerDay ≤ (today - (dz - 1)) * msPerDay :=
          mul_le_mul_of_nonneg_right hlo2 (by norm_num [msPerDay])
        rw [maxTimeValue] at h2
        norm_num [msPerDay] at h2 h3
        linarith
    unfold rangeFromDay
    rw [if_neg hclip, if_pos (by rw [rangeFromEpochDay_int]; exact ⟨hlo, hhi⟩),
      rangeFromEpochDay_int]

/-- Witness for C6: the NaN parameter resolves to the default 30, and the
range built from it on epoch day 19000 starts 29 days earlier. -/
theorem days_param_resolution_witness :
    0 < resolveDays (some JSNum.nan) ∧
    resolveDays (some JSNum.nan) = 30 ∧
    rangeFromDay 19000 (resolveDays (some JSNum.nan)) =
      FromDayResult.day (19000 - (30 - 1)) := by
  have h := days_param_resolution (some JSNum.nan) 19000
  exact ⟨h.1, h.2.1 rfl,
    h.2.2.2 30 (by norm_num) (by norm_num [resolveDays, daysInput])
      (by norm_num [minSimpleFormatDay]) (by norm_num [maxSimpleFormatDay])⟩

/-- Counterexample for C7: the empty slug matches no entity, yet the handler
returns the 400 invalid-slug error, not the 404 not-found outcome the claim
promises for every slug matching no entity. -/
theorem entity_report_empty_slug_counterexample :
    getEntityReport [] [] "" "2024-01-01" "2024-01-30" 30 =
      .error { status := 400, message := "Invalid company slug" } ∧
    getEntityReport [] [] "" "2024-01-01" "2024-01-30" 30 ≠
      .error { status := 404, message := "Company not found" } := by
  constructor
  · rfl
  · intro hcontra
    rw [show getEntityReport [] [] "" "2024-01-01" "2024-01-30" 30 =
        (Except.error { status := 400, message := "Invalid company slug" } :
          Except ErrResp CompanyReport) from rfl] at hcontra
    injection hcontra with h
    injection h with h1 h2
    exact absurd h1 (by decide)

/-- Claim C7 (amended): every nonempty slug matching no entity yields the 404
not-found structured error, never a crash or an empty successful report; the
empty slug instead yields the 400 invalid-slug error; the summary handler
never reports a missing entity, returning one item per company. -/
theorem entity_report_unknown_slug_404 (companies : List CompanyMeta)
    (stats : List StatsRow) (slug fromStr toStr : String) (days : ℚ)
    (hs : slug ≠ "") (hnone : ∀ c ∈ companies, c.slug ≠ slug) :
    getEntityReport companies stats slug fromStr toStr days =
      .error { status := 404, message := "Company not found" } ∧
    (getSummary companies stats fromStr toStr days).items.length =
      companies.length := by
  constructor
  · have hf : companies.find? (fun c => c.slug == slug) = none := by
      rw [List.find?_eq_none]
      intro c hc
      simpa using hnone c hc
    rw [getEntityReport, if_neg hs, hf]
  · exact ((List.perm_insertionSort viewsDescRel _).length_eq).trans
      (List.length_map _ _)

/-- Witness for C7: a store with one company of slug a yields not-found for
slug x, and the summary still carries one item. -/
theorem entity_report_unknown_slug_404_witness :
    getEntityReport
      [{ id := 1, slug := "a", name := "A", city_name := none,
         city_slug := none, country_code := none,
         primary_category_slug := none, plan_type := none }]
      [] "x" "2024-01-01" "2024-01-30" 30 =
      .error { status := 404, message := "Company not found" } ∧
    (getSummary
      [{ id := 1, slug := "a", name := "A", city_name := none,
         city_slug := none, country_code := none,
         primary_category_slug := none, plan_type := none }]
      [] "2024-01-01" "2024-01-30" 30).items.length = 1 :=
  entity_report_unknown_slug_404
    [{ id := 1, slug := "a", name := "A", city_name := none,
       city_slug := none, country_code := none,
       primary_category_slug := none, plan_type := none }]
    [] "x" "2024-01-01" "2024-01-30" 30 (by decide) (by decide)

end Helpers

end FirmCatalog
